import Mathlib

/-!
# sshportal bastion front-end: authentication, routing, hop chains, host keys, direct-tcpip cache

A shallow embedding of `pkg/bastion/ssh.go`.

* Go strings are Lean strings; `uint` identifiers are natural numbers; byte slices are
  lists of natural numbers; instants and durations are integers counting nanoseconds.
* The gorm handle `*gorm.DB` is a value of type `DB`: the visible rows of the four tables
  the file touches, each kept in primary-key order. Every handler takes the store and
  returns the store it leaves behind.
* Calls into `dbmodels`, `crypto`, `checkACLs`, `multiChannelHandler` and the SSH library
  are not part of `ssh.go`; the few that matter are either fields of `Env` (pure oracles)
  or small definitions whose comment says where they come from.
-/

namespace Bastion

/-! ## Data model -/

/-- Row of `dbmodels.User`, restricted to the columns `ssh.go` reads or writes. -/
structure User where
  ID : Nat
  Name : String
  Email : String
  Comment : String
  InviteToken : String
deriving DecidableEq, Repr, Inhabited

/-- Row of `dbmodels.UserKey`, with the columns `PublicKeyAuthHandler` writes. -/
structure UserKey where
  ID : Nat
  Key : List Nat
  UserID : Nat
  Comment : String
  AuthorizedKey : String
deriving DecidableEq, Repr, Inhabited

/-- An SSH public key as the handlers see it: `key.Marshal()` and
`gossh.MarshalAuthorizedKey(key)`. -/
structure PublicKey where
  Marshal : List Nat
  AuthorizedKey : String
deriving DecidableEq, Repr, Inhabited

/-- The Go zero value `dbmodels.User{}`. -/
def User.zero : User := ⟨0, "", "", "", ""⟩

/-- The Go zero value `dbmodels.UserKey{}`. -/
def UserKey.zero : UserKey := ⟨0, [], 0, "", ""⟩

/-- The struct `authContext` without its `db` pointer (the store is threaded explicitly). -/
structure authContext where
  message : String
  err : Option String
  user : User
  inputUsername : String
  userKey : UserKey
  logsLocation : String
  aclCheckCmd : String
  aesKey : String
  dbDriver : String
  dbURL : String
  bindAddr : String
  demo : Bool
  debug : Bool
  authMethod : String
  authSuccess : Bool
deriving DecidableEq, Repr

/-- The string constants `userTypeHealthcheck`, `userTypeBastion`, `userTypeInvite`,
`userTypeShell`. -/
inductive userType where
  | userTypeHealthcheck
  | userTypeBastion
  | userTypeInvite
  | userTypeShell
deriving DecidableEq, Repr

open userType

/-- The Go call `strings.HasPrefix(s, p)`. -/
def HasPrefix (s p : String) : Bool :=
  p.toList.isPrefixOf s.toList

/-- The method `authContext.userType`: a `switch` whose cases are tried in order. -/
def authContext.userType (c : authContext) : userType :=
  if c.inputUsername = "healthcheck" then userTypeHealthcheck
  else if c.inputUsername = c.user.Name ∨ c.inputUsername = c.user.Email
      ∨ c.inputUsername = "admin" then userTypeShell
  else if HasPrefix c.inputUsername "invite:" then userTypeInvite
  else userTypeBastion

/-- The arguments of `PasswordAuthHandler` / `PublicKeyAuthHandler` other than `db`. -/
structure Config where
  logsLocation : String
  aclCheckCmd : String
  aesKey : String
  dbDriver : String
  dbURL : String
  bindAddr : String
  demo : Bool
deriving DecidableEq, Repr, Inhabited

/-- The closure returned by `PasswordAuthHandler`, applied to `ctx.User()` and the
password: the context it stores with `ctx.SetValue` and the boolean it returns. -/
def PasswordAuthHandler (cfg : Config) (ctxUser : String) (_pass : String) :
    authContext × Bool :=
  let actx : authContext :=
    { message := "", err := none, user := User.zero, inputUsername := ctxUser,
      userKey := UserKey.zero, logsLocation := cfg.logsLocation,
      aclCheckCmd := cfg.aclCheckCmd, aesKey := cfg.aesKey, dbDriver := cfg.dbDriver,
      dbURL := cfg.dbURL, bindAddr := cfg.bindAddr, demo := cfg.demo, debug := false,
      authMethod := "password", authSuccess := false }
  let actx := { actx with authSuccess := decide (actx.userType = userTypeHealthcheck) }
  (actx, actx.authSuccess)

/-! ## The store -/

/-- Modelled from the spec: `dbmodels.Host` and its methods `DialAddr()` and `Scheme()`
are declared in another package of the repository. The spec's Host record has a name,
a dial address, a scheme, an optional HopID, a logging mode and the last-known HostKey
bytes; `Addr` stands for what `DialAddr()` returns and `Scheme` for what `Scheme()`
returns. -/
structure Host where
  ID : Nat
  Name : String
  Addr : String
  Scheme : String
  HopID : Option Nat
  Logging : String
  HostKey : List Nat
deriving DecidableEq, Repr, Inhabited

/-- Row of `dbmodels.Session`, with the columns `ChannelHandler` writes. -/
structure Session where
  ID : Nat
  UserID : Nat
  HostID : Nat
  Status : String
  ErrMsg : String
  StoppedAt : Option Int
deriving DecidableEq, Repr, Inhabited

/-- The state behind the `*gorm.DB` handle: the rows of each table in primary-key
order. -/
structure DB where
  users : List User
  userKeys : List UserKey
  hosts : List Host
  sessions : List Session
deriving DecidableEq, Repr, Inhabited

/-- The Go zero value `dbmodels.Host{}`. -/
def Host.zero : Host := ⟨0, "", "", "", none, "", []⟩

/-- The primary key gorm's auto-increment column gives the next inserted row. -/
def nextID (ids : List Nat) : Nat :=
  ids.foldr max 0 + 1

/-- The row `SELECT * FROM user_keys WHERE authorized_key = k ORDER BY id LIMIT 1`. -/
def DB.findUserKey (db : DB) (k : String) : Option UserKey :=
  db.userKeys.find? fun r => decide (r.AuthorizedKey = k)

/-- The row `SELECT * FROM users WHERE id = id ORDER BY id LIMIT 1`. -/
def DB.findUser (db : DB) (id : Nat) : Option User :=
  db.users.find? fun r => decide (r.ID = id)

/-- The row `SELECT * FROM users WHERE invite_token = t ORDER BY id LIMIT 1`. -/
def DB.findUserByInviteToken (db : DB) (t : String) : Option User :=
  db.users.find? fun r => decide (r.InviteToken = t)

/-- The gorm call `db.Where("authorized_key = ?", k).First(&dst)`: the first matching row;
`dst` keeps its previous value when there is none. -/
def DB.firstUserKeyByAuthorizedKey (db : DB) (k : String) (dst : UserKey) : UserKey :=
  (db.findUserKey k).getD dst

/-- The gorm call `db.Where("id = ?", id).First(&dst)` on the users table. -/
def DB.firstUserByID (db : DB) (id : Nat) (dst : User) : User :=
  (db.findUser id).getD dst

/-- The gorm call `db.Where("invite_token = ?", t).First(&dst)` on the users table. -/
def DB.firstUserByInviteToken (db : DB) (t : String) (dst : User) : User :=
  (db.findUserByInviteToken t).getD dst

/-- The gorm call `db.Create(&k)`: inserts the row under a fresh primary key and writes the
key back into the struct. -/
def DB.createUserKey (db : DB) (k : UserKey) : DB × UserKey :=
  let k1 := { k with ID := nextID (db.userKeys.map fun r => r.ID) }
  ({ db with userKeys := db.userKeys ++ [k1] }, k1)

/-- The gorm call `db.Model(&u).Updates(&u)` with a struct argument: the row whose primary key
is `u.ID` gets the fields of `u` that are not the zero value; a zero field (an empty
string here) is left out of the `UPDATE`. With a zero primary key there is no `WHERE`
clause and gorm refuses the statement. -/
def DB.updatesUser (db : DB) (u : User) : DB :=
  if u.ID = 0 then db
  else
    { db with users := db.users.map fun r =>
        if r.ID = u.ID then
          { ID := r.ID,
            Name := if u.Name = "" then r.Name else u.Name,
            Email := if u.Email = "" then r.Email else u.Email,
            Comment := if u.Comment = "" then r.Comment else u.Comment,
            InviteToken := if u.InviteToken = "" then r.InviteToken else u.InviteToken }
        else r }

/-! ## Public-key authentication -/

/-- The Go call `strings.Split(s, sep)` for a one-byte separator, on the characters of `s`. -/
def splitChars (sep : Char) : List Char → List (List Char)
  | [] => [[]]
  | c :: cs =>
    if c = sep then [] :: splitChars sep cs
    else
      match splitChars sep cs with
      | [] => [[c]]
      | p :: ps => (c :: p) :: ps

/-- The Go call `strings.Split(s, ":")[1]`. The handler evaluates it only when `s` starts with
"invite:", where index 1 exists; elsewhere the value is the empty string. -/
def inviteToken (s : String) : String :=
  String.mk ((splitChars ':' s.toList).getD 1 [])

/-- The Go call `fmt.Sprintf("%q", s)` (both agree on text without quotes, backslashes and
control characters). -/
def fmtQ (s : String) : String := s.quote

/-- The composite literal `&authContext{...}` that opens `PublicKeyAuthHandler`. -/
def pubkeyContext (cfg : Config) (ctxUser : String) : authContext :=
  { message := "", err := none, user := User.zero, inputUsername := ctxUser,
    userKey := UserKey.zero, logsLocation := cfg.logsLocation,
    aclCheckCmd := cfg.aclCheckCmd, aesKey := cfg.aesKey, dbDriver := cfg.dbDriver,
    dbURL := cfg.dbURL, bindAddr := cfg.bindAddr, demo := cfg.demo, debug := false,
    authMethod := "pubkey", authSuccess := true }

/-- The closure returned by `PublicKeyAuthHandler`, applied to `ctx.User()` and the
presented key: the store it leaves, the context it attached (as finally mutated) and
the boolean it returns. `USER_DISABLED` is a constant of the package declared in
another file. -/
def PublicKeyAuthHandler (USER_DISABLED : String) (cfg : Config) (db : DB)
    (ctxUser : String) (key : PublicKey) : DB × authContext × Bool :=
  let actx := pubkeyContext cfg ctxUser
  -- lookup user by key
  let actx := { actx with
    userKey := db.firstUserKeyByAuthorizedKey key.AuthorizedKey actx.userKey }
  if actx.userKey.UserID > 0 then
    let actx := { actx with user := db.firstUserByID actx.userKey.UserID actx.user }
    if actx.user.Comment = USER_DISABLED then
      (db, { actx with err := some "This account has been disabled" }, false)
    else if actx.userType = userTypeInvite then
      let msg := "invites are only supported for new SSH keys; your ssh key is already associated with the user "
        ++ fmtQ actx.user.Email
      (db, { actx with err := some msg }, true)
    else (db, actx, true)
  -- handle invite "links"
  else if actx.userType = userTypeInvite then
    let inputToken := inviteToken actx.inputUsername
    let actx :=
      if inputToken.length > 0 then
        { actx with user := db.firstUserByInviteToken inputToken actx.user }
      else actx
    if actx.user.ID > 0 then
      let (db1, uk) := db.createUserKey
        { ID := 0, UserID := actx.user.ID, Key := key.Marshal,
          Comment := "created by sshportal", AuthorizedKey := key.AuthorizedKey }
      let actx := { actx with userKey := uk }
      -- token is only usable once
      let actx := { actx with user := { actx.user with InviteToken := "" } }
      let db2 := db1.updatesUser actx.user
      let msg := "Welcome " ++ actx.user.Name
        ++ "!\n\nYour key is now associated with the user " ++ fmtQ actx.user.Email ++ ".\n"
      (db2, { actx with message := msg }, true)
    else
      (db, { actx with user := { User.zero with Name := "Anonymous" },
                       err := some "your token is invalid or expired" }, true)
  -- fallback
  else
    (db, { actx with err := some "unknown ssh key",
                     user := { User.zero with Name := "Anonymous" } }, false)

/-! ## Host keys -/

/-- The gorm call `db.Model(host).Update("HostKey", v)`: `UPDATE hosts SET host_key = v WHERE
id = host.ID`, with the error gorm reports when the model has no primary key. The call
also stores `v` in the struct `host` points to; a callback is used for one dial, so
that copy is not tracked. -/
def DB.updateHostKey (db : DB) (host : Host) (v : List Nat) : DB × Option String :=
  if host.ID = 0 then (db, some "WHERE conditions required")
  else
    ({ db with hosts := db.hosts.map fun r =>
        if r.ID = host.ID then { r with HostKey := v } else r }, none)

/-- The callback returned by `dynamicHostKey(db, host)`, applied to the key the remote
side presents: the store it leaves and the error it returns (`none` accepts the key). -/
def dynamicHostKey (db : DB) (host : Host) (key : PublicKey) : DB × Option String :=
  if host.HostKey.length = 0 then
    db.updateHostKey host key.Marshal
  else if ¬ host.HostKey = key.Marshal then
    (db, some "ssh: host key mismatch")
  else
    (db, none)

/-! ## Session configs and the direct-tcpip cache -/

/-- The `*gossh.ClientConfig` that `host.ClientConfig(dynamicHostKey(actx.db, host))`
returns: its `HostKeyCallback` is the closure over `host`, kept as the captured host. -/
structure ClientConfig where
  host : Host
deriving DecidableEq, Repr, Inhabited

/-- The struct `sessionConfig` (declared with `multiChannelHandler`), as the composite
literal in `ChannelHandler` fills it. -/
structure sessionConfig where
  Addr : String
  ClientConfig : ClientConfig
  LogsLocation : String
  LoggingMode : String
deriving DecidableEq, Repr, Inhabited

/-- What `ChannelHandler` reads from `*gossh.ServerConn`. -/
structure Conn where
  User : String
  RemoteNetwork : String
  RemoteAddr : String
  LocalAddr : String
deriving DecidableEq, Repr, Inhabited

/-- The struct `DirectTCPCnx`; `Ctx` is the auth context the `ssh.Context` carries. -/
structure DirectTCPCnx where
  Conn : Conn
  Ctx : authContext
  SessionConfigs : List sessionConfig
  LastUsed : Int
deriving DecidableEq, Repr

/-- The struct `DirectTCPCnxManager`: a Go map from hash to connection. The mutex is
not modelled; every operation below is one critical section. -/
structure DirectTCPCnxManager where
  Connections : String → Option DirectTCPCnx

/-- The constant `DIRECT_TCP_KEEPALIVE_DURATION = 120 * time.Second`, in nanoseconds. -/
def DIRECT_TCP_KEEPALIVE_DURATION : Int := 120 * 1000000000

/-- The Go call `time.Since(t)` at the instant `now`: the difference as a `time.Duration`,
which saturates at the ends of the int64 range. -/
def timeSince (now t : Int) : Int :=
  max (-(2 ^ 63)) (min (2 ^ 63 - 1) (now - t))

/-- The method `GetAndUpdate` at the instant `now`. -/
def DirectTCPCnxManager.GetAndUpdate (d : DirectTCPCnxManager) (now : Int) (hash : String) :
    DirectTCPCnxManager × Option DirectTCPCnx :=
  match d.Connections hash with
  | some cnx =>
    let cnx := { cnx with LastUsed := now }
    (⟨fun h => if h = hash then some cnx else d.Connections h⟩, some cnx)
  | none => (d, none)

/-- The method `Add`. -/
def DirectTCPCnxManager.Add (d : DirectTCPCnxManager) (hash : String) (cnx : DirectTCPCnx) :
    DirectTCPCnxManager :=
  ⟨fun h => if h = hash then some cnx else d.Connections h⟩

/-- The map `newDirectTCPCnxManager` starts from. -/
def DirectTCPCnxManager.empty : DirectTCPCnxManager := ⟨fun _ => none⟩

/-- One round of the goroutine started by `newDirectTCPCnxManager`, between `d.Lock()`
and `d.Unlock()`, at the instant `now`: every entry with
`time.Since(cnx.LastUsed) > DIRECT_TCP_KEEPALIVE_DURATION` is deleted. -/
def sweeperTick (d : DirectTCPCnxManager) (now : Int) : DirectTCPCnxManager :=
  ⟨fun h =>
    match d.Connections h with
    | some cnx =>
      if timeSince now cnx.LastUsed > DIRECT_TCP_KEEPALIVE_DURATION then none else some cnx
    | none => none⟩

/-- The function `hashTCPCnx` on the rendered parts: each part is quoted and followed
by a slash. -/
def hashTCPCnx (parts : List String) : String :=
  parts.foldl (fun result p => result ++ fmtQ p ++ "/") ""

/-! ## Channel dispatch -/

/-- Everything `ChannelHandler` calls that lies outside `ssh.go` and is not derived
from the store: `checkACLs` (user, host with its groups, check command), the error of
`host.ClientConfig` (`none` when the config is built), the host-and-port half of
`net.ResolveTCPAddr` (the resolved IP, `none` on error), whether `newChan.Accept()`
fails, and for the dial of a hop at a given address the dial error, the host key the
remote side presents and the error the byte pump ends with. `now` is `time.Now()`. -/
structure Env where
  checkACLs : User → Host → String → String
  hostClientConfig : Host → Option String
  resolveHostPort : String → String → Option String
  acceptFails : Bool
  dialErr : String → Option String
  remoteHostKey : String → PublicKey
  pumpErr : Option String
  now : Int

/-- The Go call `net.ResolveTCPAddr(network, address)`: a network other than "tcp", "tcp4",
"tcp6" or "" is an `UnknownNetworkError`; otherwise the address is resolved. -/
def ResolveTCPAddr (env : Env) (network address : String) : Except String String :=
  if network = "tcp" ∨ network = "tcp4" ∨ network = "tcp6" ∨ network = "" then
    match env.resolveHostPort network address with
    | some ip => .ok ip
    | none => .error ("cannot resolve " ++ address)
  else .error ("unknown network " ++ network)

/-- Modelled from the spec: `dbmodels.HostByName` is declared in another package of the
repository; the spec has it resolve the Host by name and fail when the name is absent. -/
def HostByName (db : DB) (name : String) : Except String Host :=
  match db.hosts.find? fun r => decide (r.Name = name) with
  | some h => .ok h
  | none => .error ("no such host: " ++ fmtQ name)

/-- Modelled from the spec: `dbmodels.BastionSchemeSSH`, the scheme `ssh`. -/
def BastionSchemeSSH : String := "ssh"

/-- Modelled from the spec: `dbmodels.BastionSchemeTelnet`, the scheme `telnet`. -/
def BastionSchemeTelnet : String := "telnet"

/-- Modelled from the spec: `dbmodels.ACLActionAllow`, the ACL result `allow`. -/
def ACLActionAllow : String := "allow"

/-- Modelled from the spec: `dbmodels.ACLActionDeny`, the ACL result `deny`. -/
def ACLActionDeny : String := "deny"

/-- Modelled from the spec: `dbmodels.SessionStatusActive`, the status `active`. -/
def SessionStatusActive : String := "active"

/-- Modelled from the spec: `dbmodels.SessionStatusClosed`, the status `closed`. -/
def SessionStatusClosed : String := "closed"

/-- The function `bastionClientConfig`. `crypto.HostDecrypt` and `crypto.SSHKeyDecrypt`
rewrite secret fields of the in-memory host, which the model does not carry. -/
def bastionClientConfig (env : Env) (actx : authContext) (db : DB) (host : Host) :
    Except String ClientConfig :=
  match env.hostClientConfig host with
  | some err => .error err
  | none =>
    match db.findUser actx.user.ID with
    | none => .error "record not found"
    | some tmpUser =>
      match db.hosts.find? fun r => decide (r.ID = host.ID) with
      | none => .error "record not found"
      | some tmpHost =>
        let action := env.checkACLs tmpUser tmpHost actx.aclCheckCmd
        if action = ACLActionAllow then .ok ⟨host⟩
        else if action = ACLActionDeny then .error "you don't have permission to that host"
        else .error ("invalid ACL action: " ++ fmtQ action)

/-- The gorm call `db.Model(currentHost).Association("Hop").Find(&newHost)`: the host whose
primary key is the `HopID` of `currentHost`; `newHost` stays the zero value when there
is none. -/
def DB.findHop (db : DB) (hopID : Nat) : Host :=
  (db.hosts.find? fun r => decide (r.ID = hopID)).getD Host.zero

/-- How the `for currentHost != nil` loop of `ChannelHandler` ends: with the chain, or
with the error of `bastionClientConfig`. -/
inductive Walk where
  | chain (sessionConfigs : List sessionConfig)
  | configError (err : String)
deriving DecidableEq, Repr

/-- The loop `for currentHost != nil { ... }` of `ChannelHandler`, started with the
current host and the chain built so far. Each iteration spends one unit of `fuel`;
`none` says the loop was still running when the fuel ran out. On this store the
`Association("Hop").Find` call reports no error. -/
def hopWalk (env : Env) (actx : authContext) (db : DB) (fuel : Nat)
    (currentHost : Option Host) (sessionConfigs : List sessionConfig) : Option Walk :=
  match currentHost with
  | none => some (.chain sessionConfigs)
  | some currentHost =>
    match fuel with
    | 0 => none
    | fuel + 1 =>
      match bastionClientConfig env actx db currentHost with
      | .error err2 => some (.configError err2)
      | .ok clientConfig =>
        let sessionConfigs :=
          { Addr := currentHost.Addr, ClientConfig := clientConfig,
            LogsLocation := actx.logsLocation,
            LoggingMode := currentHost.Logging : sessionConfig } :: sessionConfigs
        match currentHost.HopID with
        | some hopID =>
          if hopID ≠ 0 then
            let newHost := db.findHop hopID
            let hostname := newHost.Name
            hopWalk env actx db fuel (HostByName db hostname).toOption sessionConfigs
          else hopWalk env actx db fuel none sessionConfigs
        | none => hopWalk env actx db fuel none sessionConfigs

/-- Modelled from the spec: the hop dials of `multiChannelHandler` (declared in another
file of the package). The first hop is dialed, then each further hop over the previous
one, applying each hop's client config in order; a dial runs the config's host-key
callback on the key the remote side presents and stops the chain on its error. -/
def dialHops (env : Env) : DB → List sessionConfig → DB × Option String
  | db, [] => (db, none)
  | db, c :: cs =>
    match env.dialErr c.Addr with
    | some e => (db, some e)
    | none =>
      match dynamicHostKey db c.ClientConfig.host (env.remoteHostKey c.Addr) with
      | (db1, some e) => (db1, some e)
      | (db1, none) => dialHops env db1 cs

/-- Modelled from the spec: `multiChannelHandler`, the hop dials followed by the byte
pump; it returns the error that ended it. The Session row is the caller's. -/
def multiChannelHandler (env : Env) (db : DB) (sessionConfigs : List sessionConfig) :
    DB × Option String :=
  match dialHops env db sessionConfigs with
  | (db1, some e) => (db1, some e)
  | (db1, none) => (db1, env.pumpErr)

/-- The gorm call `db.Create(&sess)` on the sessions table. -/
def DB.createSession (db : DB) (sess : Session) : DB × Session × Option String :=
  let sess1 := { sess with ID := nextID (db.sessions.map fun r => r.ID) }
  ({ db with sessions := db.sessions ++ [sess1] }, sess1, none)

/-- The gorm call `db.Model(&sess).Updates(&sessUpdate)` with a struct argument: the row whose
primary key is `sess.ID` gets the non-zero fields of `sessUpdate`. -/
def DB.updatesSession (db : DB) (sess sessUpdate : Session) : DB :=
  if sess.ID = 0 then db
  else
    { db with sessions := db.sessions.map fun r =>
        if r.ID = sess.ID then
          { ID := if sessUpdate.ID = 0 then r.ID else sessUpdate.ID,
            UserID := if sessUpdate.UserID = 0 then r.UserID else sessUpdate.UserID,
            HostID := if sessUpdate.HostID = 0 then r.HostID else sessUpdate.HostID,
            Status := if sessUpdate.Status = "" then r.Status else sessUpdate.Status,
            ErrMsg := if sessUpdate.ErrMsg = "" then r.ErrMsg else sessUpdate.ErrMsg,
            StoppedAt := if sessUpdate.StoppedAt = none then r.StoppedAt
              else sessUpdate.StoppedAt }
        else r }

/-- The ways one call of `ChannelHandler` ends. -/
inductive Outcome where
  /-- The call `newChan.Reject(gossh.UnknownChannelType, "unsupported channel type")`. -/
  | rejected
  /-- The call `newChan.Accept()` failed and the handler returned without writing. -/
  | acceptFailed
  /-- The channel was accepted, `text` written to it, and the channel closed. -/
  | errorText (text : String)
  /-- A direct-tcpip open served from the cache by `multiChannelHandler`. -/
  | cacheHit (err : Option String)
  /-- A direct-tcpip open on a fresh chain: cached, then `multiChannelHandler`. -/
  | directTCP (sessionConfigs : List sessionConfig) (sessID : Nat) (err : Option String)
  /-- A session channel: `multiChannelHandler` in its goroutine, then the Session row
  closed. -/
  | session (sessionConfigs : List sessionConfig) (sessID : Nat) (err : Option String)
  /-- The call of `DefaultChannelHandler` on a temporary server with
  `telnetHandler(host)`. -/
  | telnet (host : Host)
  /-- The call `DefaultChannelHandler(srv, conn, newChan, ctx)`. -/
  | defaultHandler
deriving DecidableEq, Repr

/-- What a call of `ChannelHandler` leaves behind: the store, the cache, `actx.err`,
and how the call ended. -/
structure Result where
  db : DB
  cache : DirectTCPCnxManager
  err : Option String
  outcome : Outcome

/-- What follows `newChan.Accept()` at each place that answers with a text: the
handler returns if the accept failed, else writes the text and closes the channel. -/
def acceptAndWrite (env : Env) (text : String) : Outcome :=
  if env.acceptFails then .acceptFailed else .errorText text

/-- The case `userTypeBastion` of the `switch actx.userType()` in `ChannelHandler`.
The goroutine of the session case is run to its end as part of the call. The
connection registry `CnxManager` and `conn.Close()` leave no trace in the store and
are not modelled. -/
def bastionCase (env : Env) (fuel : Nat) (channelType hashed : String) (conn : Conn)
    (actx : authContext) (db : DB) (cache : DirectTCPCnxManager) : Option Result :=
  match HostByName db actx.inputUsername with
  | .error err =>
    some ⟨db, cache, actx.err, acceptAndWrite env ("error: " ++ err ++ "\n")⟩
  | .ok host =>
    if host.Scheme = BastionSchemeSSH then
      match hopWalk env actx db fuel (some host) [] with
      | none => none
      | some (.configError err2) =>
        some ⟨db, cache, actx.err, acceptAndWrite env ("error: " ++ err2 ++ "\n")⟩
      | some (.chain sessionConfigs) =>
        let sess : Session :=
          { ID := 0, UserID := actx.user.ID, HostID := host.ID,
            Status := SessionStatusActive, ErrMsg := "", StoppedAt := none }
        match db.createSession sess with
        | (db1, _, some err) =>
          some ⟨db1, cache, actx.err, acceptAndWrite env ("error: " ++ err ++ "\n")⟩
        | (db1, sess, none) =>
          if channelType = "direct-tcpip" then
            let cache1 := cache.Add hashed
              { Ctx := actx, Conn := conn, SessionConfigs := sessionConfigs,
                LastUsed := env.now }
            let (db2, err) := multiChannelHandler env db1 sessionConfigs
            some ⟨db2, cache1, actx.err, .directTCP sessionConfigs sess.ID err⟩
          else
            let (db2, err) := multiChannelHandler env db1 sessionConfigs
            let sessUpdate : Session :=
              { ID := 0, UserID := 0, HostID := 0, Status := SessionStatusClosed,
                ErrMsg := err.getD "", StoppedAt := some env.now }
            let db3 := db2.updatesSession sess sessUpdate
            some ⟨db3, cache, actx.err, .session sessionConfigs sess.ID err⟩
    else if host.Scheme = BastionSchemeTelnet then
      some ⟨db, cache, actx.err, .telnet host⟩
    else
      some ⟨db, cache, actx.err,
        acceptAndWrite env ("error: unknown bastion scheme: " ++ fmtQ host.Scheme ++ "\n")⟩

/-- The main block of `ChannelHandler`, reached by a session channel and by a
direct-tcpip channel that misses the cache: the access check, then the
`switch actx.userType()`. -/
def mainBlock (env : Env) (fuel : Nat) (channelType hashed : String) (conn : Conn)
    (actx : authContext) (db : DB) (cache : DirectTCPCnxManager) : Option Result :=
  let dispatch : Option Result :=
    if actx.userType = userTypeBastion then
      bastionCase env fuel channelType hashed conn actx db cache
    else some ⟨db, cache, actx.err, .defaultHandler⟩
  if actx.user.ID = 0 ∧ actx.userType ≠ userTypeHealthcheck then
    match ResolveTCPAddr env conn.RemoteNetwork conn.RemoteAddr with
    | .ok _ =>
      some ⟨db, cache, some "access denied", acceptAndWrite env "error: access denied\n"⟩
    | .error _ => dispatch
  else dispatch

/-- The function `ChannelHandler` for one new channel of type `channelType`, on the
auth context attached to the connection. `none` says the hop loop was still running
when the fuel ran out. -/
def ChannelHandler (env : Env) (fuel : Nat) (conn : Conn) (channelType : String)
    (actx : authContext) (db : DB) (cache : DirectTCPCnxManager) : Option Result :=
  let hashed := hashTCPCnx
    [conn.User, conn.RemoteAddr, conn.LocalAddr, toString actx.user.ID, actx.user.Email]
  if channelType = "session" then
    mainBlock env fuel channelType hashed conn actx db cache
  else if channelType = "direct-tcpip" then
    match cache.GetAndUpdate env.now hashed with
    | (cache1, some v) =>
      let (db1, err) := multiChannelHandler env db v.SessionConfigs
      some ⟨db1, cache1, actx.err, .cacheHit err⟩
    | (cache1, none) => mainBlock env fuel channelType hashed conn actx db cache1
  else
    some ⟨db, cache, actx.err, .rejected⟩

/-- The outcomes in which the channel is refused or answered with a text and closed,
before anything is dialed. -/
def Outcome.isRejection : Outcome → Bool
  | .rejected => true
  | .acceptFailed => true
  | .errorText _ => true
  | _ => false

/-! ## The Hop relation as the loop follows it -/

/-- The host the loop of `ChannelHandler` moves to after `h`: none when `HopID` is nil
or zero; otherwise the host found by the name of the host `HopID` refers to, none when
that lookup fails. -/
def hopNext (db : DB) (h : Host) : Option Host :=
  match h.HopID with
  | some hopID =>
    if hopID ≠ 0 then (HostByName db (db.findHop hopID).Name).toOption else none
  | none => none

/-- The walk from `h` visits the hosts of `rest` in that order and stops at the last
of them, a host after which the loop has nowhere to go. -/
def visits (db : DB) : Host → List Host → Prop
  | h, [] => hopNext db h = none
  | h, h2 :: rest => hopNext db h = some h2 ∧ visits db h2 rest

/-- Whether a given list is the walk from `h` can be computed. -/
instance visitsDecidable (db : DB) : (h : Host) → (rest : List Host) →
    Decidable (visits db h rest)
  | h, [] => inferInstanceAs (Decidable (hopNext db h = none))
  | _, h2 :: rest => @instDecidableAnd _ _ _ (visitsDecidable db h2 rest)

/-- The ACL decision `bastionClientConfig` reaches for `host`: what `checkACLs` answers
on the preloaded user and host; none when one of the two records does not load. -/
def aclDecision (env : Env) (actx : authContext) (db : DB) (host : Host) : Option String :=
  match db.findUser actx.user.ID, db.hosts.find? fun r => decide (r.ID = host.ID) with
  | some tmpUser, some tmpHost => some (env.checkACLs tmpUser tmpHost actx.aclCheckCmd)
  | _, _ => none

/-! ## Concrete stores and connections used by the closed statements -/

/-- A cache entry last used at instant 0. -/
def idleCnx : DirectTCPCnx :=
  { Conn := ⟨"db01", "tcp", "192.0.2.1:5555", "192.0.2.2:2222"⟩,
    Ctx := pubkeyContext ⟨"", "", "", "", "", "", false⟩ "db01",
    SessionConfigs := [], LastUsed := 0 }

/-- A cache holding `idleCnx` under the hash "h". -/
def idleCache : DirectTCPCnxManager :=
  DirectTCPCnxManager.empty.Add "h" idleCnx

/-- A host `web01` without a recorded fingerprint. -/
def web01 : Host := ⟨1, "web01", "10.0.0.5:22", "ssh", none, "everything", []⟩

/-- A store holding only `web01`. -/
def web01DB : DB := ⟨[], [], [web01], []⟩

/-- A key some remote host presents. -/
def remoteKey : PublicKey := ⟨[7, 7, 7], "ssh-ed25519 AAAAremote"⟩

/-- An environment whose ACL check allows everything, where every client config is
built, every address resolves, every dial succeeds, and every remote host presents
`remoteKey`. -/
def allowEnv : Env :=
  { checkACLs := fun _ _ _ => "allow", hostClientConfig := fun _ => none,
    resolveHostPort := fun _ a => some a, acceptFails := false, dialErr := fun _ => none,
    remoteHostKey := fun _ => remoteKey, pumpErr := none, now := 1000 }

/-- A user with id 3. -/
def bob : User := ⟨3, "bob", "bob@example.org", "", ""⟩

/-- The origin hop `bastion1`. -/
def bastion1 : Host := ⟨1, "bastion1", "10.0.0.1:22", "ssh", none, "everything", []⟩

/-- The terminal host `db01`, reached through `bastion1`. -/
def db01 : Host := ⟨2, "db01", "10.0.0.2:22", "ssh", some 1, "input", []⟩

/-- The store of the hop-chain scenario. -/
def hopDB : DB := ⟨[bob], [], [bastion1, db01], []⟩

/-- The auth context of `bob` asking for the host `name`. -/
def bobContext (name : String) : authContext :=
  { pubkeyContext ⟨"/var/log/sshportal", "", "", "", "", "", false⟩ name with user := bob }

/-- A host whose hop is `loopB`. -/
def loopA : Host := ⟨1, "a", "10.0.0.1:22", "ssh", some 2, "everything", []⟩

/-- A host whose hop is `loopA`. -/
def loopB : Host := ⟨2, "b", "10.0.0.2:22", "ssh", some 1, "everything", []⟩

/-- A store whose Hop relation is the cycle `loopA`, `loopB`, `loopA`, ... -/
def cycleDB : DB := ⟨[bob], [], [loopA, loopB], []⟩

/-- A client connection arriving over TCP. -/
def tcpConn : Conn := ⟨"web01", "tcp", "192.0.2.1:5555", "192.0.2.2:2222"⟩

/-- A connection whose remote address is not a TCP address, as a unix-socket listener
would hand over. -/
def unixConn : Conn := ⟨"tn01", "unix", "@", "/run/sshportal.sock"⟩

/-- The host `web01` with the fingerprint [1] on record. -/
def pinnedWeb01 : Host := { web01 with HostKey := [1] }

/-- A store with `bob` and the pinned `web01`, without sessions. -/
def pinnedDB : DB := ⟨[bob], [], [pinnedWeb01], []⟩

/-- A telnet host. -/
def tn01 : Host := ⟨1, "tn01", "10.0.0.9:23", "telnet", none, "everything", []⟩

/-- A store with a key whose owner, user 9, has been deleted, and a telnet host. -/
def orphanDB : DB :=
  ⟨[bob], [⟨1, [5], 9, "laptop", "ssh-ed25519 AAAAorphan"⟩], [tn01], []⟩

/-- The key of the deleted user. -/
def orphanKey : PublicKey := ⟨[5], "ssh-ed25519 AAAAorphan"⟩

/-- A user with id 7 holding the invite token "TK1". -/
def alice : User := ⟨7, "alice", "alice@example.org", "", "TK1"⟩

/-- A store with `alice` and no keys. -/
def inviteDB : DB := ⟨[alice], [], [], []⟩

/-- A first unregistered key. -/
def keyOne : PublicKey := ⟨[1], "ssh-ed25519 AAAAone"⟩

/-- A second unregistered key. -/
def keyTwo : PublicKey := ⟨[2], "ssh-ed25519 AAAAtwo"⟩

/-- A store where the key "ssh-ed25519 AAAAone" belongs to a disabled user. -/
def disabledDB : DB :=
  ⟨[⟨4, "carol", "carol@example.org", "DISABLED", ""⟩],
   [⟨1, [1], 4, "laptop", "ssh-ed25519 AAAAone"⟩], [], []⟩

/-- An environment like `allowEnv` whose ACL check denies everything. -/
def denyEnv : Env := { allowEnv with checkACLs := fun _ _ _ => "deny" }

/-- A store with `bob` and `web01`, without sessions. -/
def bobWebDB : DB := ⟨[bob], [], [web01], []⟩

/-- An environment like `allowEnv` whose ACL check denies the host `bastion1` alone. -/
def denyBastionEnv : Env :=
  { allowEnv with checkACLs := fun _ h _ => if h.Name = "bastion1" then "deny" else "allow" }

/-! ## Theorems -/

/-- C3: `userType` is a function of `inputUsername`, `user.Name` and `user.Email` alone,
and applies its four rules in priority order: `healthcheck` for the literal
"healthcheck"; else `shell` when the input equals the name, the email or "admin";
else `invite` when the input starts with "invite:"; else `bastion`. -/
theorem userType_rules (c : authContext) :
    (∀ c2 : authContext, c2.inputUsername = c.inputUsername → c2.user.Name = c.user.Name →
        c2.user.Email = c.user.Email → c2.userType = c.userType) ∧
    (c.inputUsername = "healthcheck" → c.userType = userTypeHealthcheck) ∧
    (c.inputUsername ≠ "healthcheck" →
        (c.inputUsername = c.user.Name ∨ c.inputUsername = c.user.Email
          ∨ c.inputUsername = "admin") → c.userType = userTypeShell) ∧
    (c.inputUsername ≠ "healthcheck" → c.inputUsername ≠ c.user.Name →
        c.inputUsername ≠ c.user.Email → c.inputUsername ≠ "admin" →
        HasPrefix c.inputUsername "invite:" = true → c.userType = userTypeInvite) ∧
    (c.inputUsername ≠ "healthcheck" → c.inputUsername ≠ c.user.Name →
        c.inputUsername ≠ c.user.Email → c.inputUsername ≠ "admin" →
        HasPrefix c.inputUsername "invite:" = false → c.userType = userTypeBastion) := by
  refine ⟨?_, ?_, ?_, ?_, ?_⟩
  · intro c2 h1 h2 h3
    simp only [authContext.userType, h1, h2, h3]
  · intro h
    simp [authContext.userType, h]
  · intro h hs
    simp [authContext.userType, h, hs]
  · intro h h1 h2 h3 hp
    simp [authContext.userType, h, h1, h2, h3, hp]
  · intro h h1 h2 h3 hp
    simp [authContext.userType, h, h1, h2, h3, hp]

/-- C3 at concrete inputs: one username for each of the four rules, for the user `bob`. -/
theorem userType_rules_witness :
    (bobContext "healthcheck").userType = userTypeHealthcheck ∧
    (bobContext "bob@example.org").userType = userTypeShell ∧
    (bobContext "invite:TK1").userType = userTypeInvite ∧
    (bobContext "web01").userType = userTypeBastion :=
  ⟨(userType_rules (bobContext "healthcheck")).2.1 rfl,
   (userType_rules (bobContext "bob@example.org")).2.2.1 (by decide) (Or.inr (Or.inl rfl)),
   (userType_rules (bobContext "invite:TK1")).2.2.2.1 (by decide) (by decide) (by decide)
     (by decide) (by decide),
   (userType_rules (bobContext "web01")).2.2.2.2 (by decide) (by decide) (by decide)
     (by decide) (by decide)⟩

/-- C1: the password handler returns true exactly for the username "healthcheck", and
the context it attaches carries that same boolean in `authSuccess`. -/
theorem PasswordAuthHandler_healthcheck_only (cfg : Config) (username pass : String) :
    ((PasswordAuthHandler cfg username pass).2 = true ↔ username = "healthcheck") ∧
    (PasswordAuthHandler cfg username pass).1.authSuccess
      = (PasswordAuthHandler cfg username pass).2 := by
  refine ⟨?_, rfl⟩
  simp only [PasswordAuthHandler, decide_eq_true_eq, authContext.userType]
  by_cases h : username = "healthcheck"
  · simp [h]
  · simp only [h, if_false, iff_false]
    split_ifs <;> simp

/-- With a stored key row bound to a user id, the handler accepts unless the loaded
user carries the disabled marker. -/
theorem PublicKeyAuthHandler_known (USER_DISABLED : String) (cfg : Config) (db : DB)
    (username : String) (key : PublicKey)
    (h : 0 < (db.firstUserKeyByAuthorizedKey key.AuthorizedKey UserKey.zero).UserID) :
    (PublicKeyAuthHandler USER_DISABLED cfg db username key).2.2 =
      decide (¬ (db.firstUserByID
        (db.firstUserKeyByAuthorizedKey key.AuthorizedKey UserKey.zero).UserID User.zero).Comment
          = USER_DISABLED) := by
  unfold PublicKeyAuthHandler
  simp only []
  split_ifs with h1 h2 h3 h4 h5 h6 h7
  · exact (decide_eq_false (not_not_intro h2)).symm
  · exact (decide_eq_true h2).symm
  · exact (decide_eq_true h2).symm
  all_goals exact absurd h h1

/-- Without such a row, the handler accepts exactly the `invite` user type. -/
theorem PublicKeyAuthHandler_unknown (USER_DISABLED : String) (cfg : Config) (db : DB)
    (username : String) (key : PublicKey)
    (h : ¬ 0 < (db.firstUserKeyByAuthorizedKey key.AuthorizedKey UserKey.zero).UserID) :
    (PublicKeyAuthHandler USER_DISABLED cfg db username key).2.2 =
      decide ((pubkeyContext cfg username).userType = userTypeInvite) := by
  unfold PublicKeyAuthHandler
  simp only []
  split_ifs with h1 h2 h3 h4 h5 h6 h7
  · exact absurd h1 h
  · exact absurd h1 h
  · exact absurd h1 h
  · exact (decide_eq_true h4).symm
  · exact (decide_eq_true h4).symm
  · exact (decide_eq_true h4).symm
  · exact (decide_eq_true h4).symm
  · exact (decide_eq_false h4).symm

/-- C2: the public-key handler refuses exactly when the presented key is bound to a
user whose comment is the disabled marker, or the key is not in the store and the user
type is not `invite`; in every other case it returns true. Stored keys carry the id of
a user (ids start at 1), and the disabled marker is not the empty comment. -/
theorem PublicKeyAuthHandler_refuses_iff (USER_DISABLED : String) (cfg : Config) (db : DB)
    (username : String) (key : PublicKey)
    (hmark : USER_DISABLED ≠ "")
    (hbound : ∀ k ∈ db.userKeys, 0 < k.UserID) :
    (PublicKeyAuthHandler USER_DISABLED cfg db username key).2.2 = false ↔
      ((∃ k u, db.findUserKey key.AuthorizedKey = some k ∧ db.findUser k.UserID = some u ∧
          u.Comment = USER_DISABLED) ∨
       (db.findUserKey key.AuthorizedKey = none ∧
          (pubkeyContext cfg username).userType ≠ userTypeInvite)) := by
  cases hk : db.findUserKey key.AuthorizedKey with
  | none =>
    have h0 : ¬ 0 < (db.firstUserKeyByAuthorizedKey key.AuthorizedKey UserKey.zero).UserID := by
      simp [DB.firstUserKeyByAuthorizedKey, hk, UserKey.zero]
    rw [PublicKeyAuthHandler_unknown USER_DISABLED cfg db username key h0]
    simp
  | some k =>
    have hpos : 0 < k.UserID := hbound k (List.mem_of_find?_eq_some hk)
    have h0 : 0 < (db.firstUserKeyByAuthorizedKey key.AuthorizedKey UserKey.zero).UserID := by
      simpa [DB.firstUserKeyByAuthorizedKey, hk] using hpos
    rw [PublicKeyAuthHandler_known USER_DISABLED cfg db username key h0]
    simp only [DB.firstUserKeyByAuthorizedKey, hk, Option.getD_some, DB.firstUserByID]
    cases hu : db.findUser k.UserID with
    | none =>
      have : ¬ User.zero.Comment = USER_DISABLED := fun h => hmark h.symm
      simp [hu, this]
    | some u => simp [hu]

/-- C2 at a concrete input: the key of the disabled user `carol` is refused. -/
theorem PublicKeyAuthHandler_refuses_iff_witness :
    ("DISABLED" ≠ "" ∧ ∀ k ∈ disabledDB.userKeys, 0 < k.UserID) ∧
    (PublicKeyAuthHandler "DISABLED" ⟨"", "", "", "", "", "", false⟩ disabledDB "web01"
        keyOne).2.2 = false :=
  ⟨⟨by decide, by decide⟩,
   (PublicKeyAuthHandler_refuses_iff "DISABLED" ⟨"", "", "", "", "", "", false⟩ disabledDB
      "web01" keyOne (by decide) (by decide)).mpr
     (Or.inl ⟨⟨1, [1], 4, "laptop", "ssh-ed25519 AAAAone"⟩,
       ⟨4, "carol", "carol@example.org", "DISABLED", ""⟩, by decide, by decide, rfl⟩)⟩

/-- C9 at the failing input: `keyOne` enrolls through "invite:TK1"; the user's token
in the store is still "TK1" afterwards, and `keyTwo`, presented with the same username,
resolves to the same user 7 and is enrolled as well. -/
theorem PublicKeyAuthHandler_invite_token_reused :
    (PublicKeyAuthHandler "DISABLED" ⟨"", "", "", "", "", "", false⟩ inviteDB "invite:TK1"
        keyOne).1.users.map (fun u => (u.ID, u.InviteToken)) = [(7, "TK1")] ∧
    (PublicKeyAuthHandler "DISABLED" ⟨"", "", "", "", "", "", false⟩
        (PublicKeyAuthHandler "DISABLED" ⟨"", "", "", "", "", "", false⟩ inviteDB
          "invite:TK1" keyOne).1
        "invite:TK1" keyTwo).2.1.user.ID = 7 ∧
    (PublicKeyAuthHandler "DISABLED" ⟨"", "", "", "", "", "", false⟩
        (PublicKeyAuthHandler "DISABLED" ⟨"", "", "", "", "", "", false⟩ inviteDB
          "invite:TK1" keyOne).1
        "invite:TK1" keyTwo).2.1.err = none ∧
    (PublicKeyAuthHandler "DISABLED" ⟨"", "", "", "", "", "", false⟩
        (PublicKeyAuthHandler "DISABLED" ⟨"", "", "", "", "", "", false⟩ inviteDB
          "invite:TK1" keyOne).1
        "invite:TK1" keyTwo).1.userKeys.map (fun k => (k.UserID, k.AuthorizedKey)) =
      [(7, "ssh-ed25519 AAAAone"), (7, "ssh-ed25519 AAAAtwo")] := by
  decide

/-! ### Host keys -/

/-- C5: the callback of `dynamicHostKey` is trust-on-first-use. For a host record of
the store without a fingerprint it accepts and the store then holds the presented
key's marshaled bytes for that host, nothing else changing; for a host with a
fingerprint it leaves the store as it is, accepts a byte-equal key and fails with
"ssh: host key mismatch" on any other. -/
theorem dynamicHostKey_tofu (db : DB) (host : Host) (key : PublicKey) :
    (host.HostKey = [] → host ∈ db.hosts → 0 < host.ID →
      (dynamicHostKey db host key).2 = none ∧
      { host with HostKey := key.Marshal } ∈ (dynamicHostKey db host key).1.hosts ∧
      (∀ r ∈ (dynamicHostKey db host key).1.hosts, r.ID = host.ID →
        r.HostKey = key.Marshal) ∧
      (∀ r ∈ db.hosts, r.ID ≠ host.ID → r ∈ (dynamicHostKey db host key).1.hosts) ∧
      (dynamicHostKey db host key).1.users = db.users ∧
      (dynamicHostKey db host key).1.userKeys = db.userKeys ∧
      (dynamicHostKey db host key).1.sessions = db.sessions) ∧
    (host.HostKey ≠ [] →
      (dynamicHostKey db host key).1 = db ∧
      (key.Marshal = host.HostKey → (dynamicHostKey db host key).2 = none) ∧
      (key.Marshal ≠ host.HostKey →
        (dynamicHostKey db host key).2 = some "ssh: host key mismatch")) := by
  constructor
  · intro hk hin hid
    have hid0 : ¬ host.ID = 0 := Nat.pos_iff_ne_zero.mp hid
    simp only [dynamicHostKey, hk, List.length_nil, if_true, DB.updateHostKey, hid0,
      if_false]
    refine ⟨trivial, ?_, ?_, ?_, trivial, trivial, trivial⟩
    · exact List.mem_map.mpr ⟨host, hin, by simp⟩
    · intro r hr hrid
      obtain ⟨r0, _, hr0⟩ := List.mem_map.mp hr
      by_cases h0 : r0.ID = host.ID
      · rw [if_pos h0] at hr0
        rw [← hr0]
      · rw [if_neg h0] at hr0
        rw [hr0] at h0
        exact absurd hrid h0
    · intro r hr hne
      exact List.mem_map.mpr ⟨r, hr, by simp [hne]⟩
  · intro hk
    have hlen : ¬ host.HostKey.length = 0 := fun h => hk (List.length_eq_zero.mp h)
    refine ⟨?_, ?_, ?_⟩
    · simp only [dynamicHostKey, hlen, if_false]
      split_ifs <;> rfl
    · intro he
      simp [dynamicHostKey, hlen, he]
    · intro hne
      have hne2 : ¬ host.HostKey = key.Marshal := fun h => hne h.symm
      simp [dynamicHostKey, hlen, hne2]

/-- C5 at concrete inputs: `web01` has no fingerprint, the presented key is recorded
and accepted; a host with the fingerprint [1] rejects the key [7, 7, 7]. -/
theorem dynamicHostKey_tofu_witness :
    ((dynamicHostKey web01DB web01 remoteKey).2 = none ∧
      { web01 with HostKey := [7, 7, 7] } ∈ (dynamicHostKey web01DB web01 remoteKey).1.hosts) ∧
    (dynamicHostKey web01DB { web01 with HostKey := [1] } remoteKey).2
      = some "ssh: host key mismatch" :=
  ⟨⟨((dynamicHostKey_tofu web01DB web01 remoteKey).1 rfl (by decide) (by decide)).1,
    ((dynamicHostKey_tofu web01DB web01 remoteKey).1 rfl (by decide) (by decide)).2.1⟩,
   ((dynamicHostKey_tofu web01DB { web01 with HostKey := [1] } remoteKey).2
      (by decide)).2.2 (by decide)⟩

/-! ### The direct-tcpip cache -/

/-- C10 fails as stated: an entry idle for exactly the 120 seconds of the keepalive is
still in the cache after the tick. -/
theorem sweeperTick_keeps_entry_idle_exactly_keepalive :
    ¬ ∀ (d : DirectTCPCnxManager) (now : Int) (h : String) (cnx : DirectTCPCnx),
        d.Connections h = some cnx →
        now - cnx.LastUsed ≥ DIRECT_TCP_KEEPALIVE_DURATION →
        (sweeperTick d now).Connections h = none := by
  intro H
  have h1 := H idleCache 120000000000 "h" idleCnx rfl (by decide)
  have h2 : (sweeperTick idleCache 120000000000).Connections "h" = some idleCnx := by decide
  rw [h1] at h2
  exact Option.noConfusion h2

/-- C10 as amended: at a sweeper tick, an entry whose idle time (now minus LastUsed) is
strictly greater than the 120-second keepalive is absent from the cache after the
tick, and an entry idle for the keepalive or less is kept unchanged. -/
theorem sweeperTick_removes_idle (d : DirectTCPCnxManager) (now : Int) (h : String)
    (cnx : DirectTCPCnx) (hcnx : d.Connections h = some cnx) :
    (now - cnx.LastUsed > DIRECT_TCP_KEEPALIVE_DURATION →
      (sweeperTick d now).Connections h = none) ∧
    (now - cnx.LastUsed ≤ DIRECT_TCP_KEEPALIVE_DURATION →
      (sweeperTick d now).Connections h = some cnx) := by
  have key : timeSince now cnx.LastUsed > DIRECT_TCP_KEEPALIVE_DURATION ↔
      now - cnx.LastUsed > DIRECT_TCP_KEEPALIVE_DURATION := by
    simp only [timeSince, DIRECT_TCP_KEEPALIVE_DURATION, max_def, min_def]
    norm_num
    split_ifs <;> omega
  constructor
  · intro hi
    simp only [sweeperTick, hcnx]
    rw [if_pos (key.mpr hi)]
  · intro hi
    simp only [sweeperTick, hcnx]
    rw [if_neg (fun hgt => absurd (key.mp hgt) (not_lt.mpr hi))]

/-- C10 as amended, at concrete inputs: `idleCnx` was last used at 0; at 120 s and one
nanosecond it is gone after the tick. -/
theorem sweeperTick_removes_idle_witness :
    idleCache.Connections "h" = some idleCnx ∧
    (sweeperTick idleCache 120000000001).Connections "h" = none :=
  ⟨rfl, (sweeperTick_removes_idle idleCache 120000000001 "h" idleCnx rfl).1 (by decide)⟩

/-! ### The hop walk -/

/-- When the client config is built and the ACL decision is `allow`,
`bastionClientConfig` returns the config for the host. -/
theorem bastionClientConfig_of_allow (env : Env) (actx : authContext) (db : DB) (host : Host)
    (hcfg : env.hostClientConfig host = none)
    (hacl : aclDecision env actx db host = some ACLActionAllow) :
    bastionClientConfig env actx db host = .ok ⟨host⟩ := by
  unfold aclDecision at hacl
  unfold bastionClientConfig
  rw [hcfg]
  cases hu : db.findUser actx.user.ID with
  | none => simp [hu] at hacl
  | some u =>
    cases hh : db.hosts.find? (fun r => decide (r.ID = host.ID)) with
    | none => simp [hu, hh] at hacl
    | some th =>
      simp only [hu, hh, Option.some.injEq] at hacl
      simp [hacl]

/-- With no current host the loop is over and the chain stands. -/
theorem hopWalk_none (env : Env) (actx : authContext) (db : DB) (fuel : Nat)
    (acc : List sessionConfig) :
    hopWalk env actx db fuel none acc = some (.chain acc) := by
  simp [hopWalk]

/-- One iteration of the loop on a host whose client config is built. -/
theorem hopWalk_step (env : Env) (actx : authContext) (db : DB) (fuel : Nat) (h : Host)
    (acc : List sessionConfig) (cc : ClientConfig)
    (hok : bastionClientConfig env actx db h = .ok cc) :
    hopWalk env actx db (fuel + 1) (some h) acc =
      hopWalk env actx db fuel (hopNext db h)
        ({ Addr := h.Addr, ClientConfig := cc, LogsLocation := actx.logsLocation,
           LoggingMode := h.Logging } :: acc) := by
  simp only [hopWalk, hok, hopNext]
  cases h.HopID with
  | none => simp [hopWalk]
  | some id =>
    by_cases h0 : id = 0
    · simp [h0, hopWalk]
    · simp [h0]

/-- The chain the loop builds on a finite walk whose hosts all pass
`bastionClientConfig`, on top of the chain it started with. -/
theorem hopWalk_chain_acc (env : Env) (actx : authContext) (db : DB) :
    ∀ (rest : List Host) (h0 : Host) (fuel : Nat) (acc : List sessionConfig),
      visits db h0 rest →
      (∀ h ∈ h0 :: rest, bastionClientConfig env actx db h = .ok ⟨h⟩) →
      rest.length + 1 ≤ fuel →
      hopWalk env actx db fuel (some h0) acc =
        some (.chain ((h0 :: rest).reverse.map (fun h =>
          ({ Addr := h.Addr, ClientConfig := ⟨h⟩, LogsLocation := actx.logsLocation,
             LoggingMode := h.Logging } : sessionConfig)) ++ acc)) := by
  intro rest
  induction rest with
  | nil =>
    intro h0 fuel acc hv hok hf
    obtain ⟨n, rfl⟩ : ∃ n, fuel = n + 1 := ⟨fuel - 1, by simp at hf; omega⟩
    rw [hopWalk_step env actx db n h0 acc ⟨h0⟩ (hok h0 (by simp))]
    simp only [visits] at hv
    rw [hv]
    simp [hopWalk]
  | cons h1 rest ih =>
    intro h0 fuel acc hv hok hf
    obtain ⟨n, rfl⟩ : ∃ n, fuel = n + 1 := ⟨fuel - 1, by simp at hf; omega⟩
    rw [hopWalk_step env actx db n h0 acc ⟨h0⟩ (hok h0 (by simp))]
    simp only [visits] at hv
    rw [hv.1]
    rw [ih h1 n _ hv.2 (fun h hh => hok h (List.mem_cons_of_mem _ hh))
      (by simp at hf; omega)]
    simp

/-- C7: when the walk from the terminal host `h0` visits `rest = [h1, ..., hn]` and
stops at the origin `hn`, and for each visited host the client config is built and the
ACL decision is `allow`, the loop of `ChannelHandler` ends (given at least n+1
iterations) with a chain of exactly n+1 session configs, origin first and terminal
last: the configs of `[hn, ..., h1, h0]`, each with the dial address and logging mode
of its host. -/
theorem hopWalk_chain_origin_first (env : Env) (actx : authContext) (db : DB) (h0 : Host)
    (rest : List Host) (fuel : Nat)
    (hvisit : visits db h0 rest)
    (hcfg : ∀ h ∈ h0 :: rest, env.hostClientConfig h = none)
    (hacl : ∀ h ∈ h0 :: rest, aclDecision env actx db h = some ACLActionAllow)
    (hfuel : rest.length + 1 ≤ fuel) :
    hopWalk env actx db fuel (some h0) [] =
      some (.chain ((h0 :: rest).reverse.map (fun h =>
        ({ Addr := h.Addr, ClientConfig := ⟨h⟩, LogsLocation := actx.logsLocation,
           LoggingMode := h.Logging } : sessionConfig)))) ∧
    ((h0 :: rest).reverse.map (fun h =>
        ({ Addr := h.Addr, ClientConfig := ⟨h⟩, LogsLocation := actx.logsLocation,
           LoggingMode := h.Logging } : sessionConfig))).length = rest.length + 1 := by
  refine ⟨?_, by simp⟩
  have := hopWalk_chain_acc env actx db rest h0 fuel [] hvisit
    (fun h hh => bastionClientConfig_of_allow env actx db h (hcfg h hh) (hacl h hh)) hfuel
  simpa using this

/-- C7 on the store where `db01` hops through `bastion1`: the chain is
`[bastion1, db01]`. -/
theorem hopWalk_chain_origin_first_witness :
    visits hopDB db01 [bastion1] ∧
    hopWalk allowEnv (bobContext "db01") hopDB 2 (some db01) [] =
      some (.chain
        [⟨"10.0.0.1:22", ⟨bastion1⟩, "/var/log/sshportal", "everything"⟩,
         ⟨"10.0.0.2:22", ⟨db01⟩, "/var/log/sshportal", "input"⟩]) :=
  ⟨⟨by decide, by decide⟩,
   (hopWalk_chain_origin_first allowEnv (bobContext "db01") hopDB db01 [bastion1] 2
      ⟨by decide, by decide⟩ (by decide) (by decide) (by decide)).1⟩

/-- In `cycleDB` the loop never leaves the cycle: however many iterations it is
given, it is still running, from either host and whatever chain it holds. -/
theorem hopWalk_cycle_runs_on (fuel : Nat) :
    ∀ acc : List sessionConfig,
      hopWalk allowEnv (bobContext "a") cycleDB fuel (some loopA) acc = none ∧
      hopWalk allowEnv (bobContext "a") cycleDB fuel (some loopB) acc = none := by
  induction fuel with
  | zero => intro acc; exact ⟨rfl, rfl⟩
  | succ n ih =>
    intro acc
    have ha : bastionClientConfig allowEnv (bobContext "a") cycleDB loopA = .ok ⟨loopA⟩ := by
      rfl
    have hb : bastionClientConfig allowEnv (bobContext "a") cycleDB loopB = .ok ⟨loopB⟩ := by
      rfl
    have na : hopNext cycleDB loopA = some loopB := by decide
    have nb : hopNext cycleDB loopB = some loopA := by decide
    constructor
    · rw [hopWalk_step _ _ _ n loopA acc ⟨loopA⟩ ha, na]
      exact (ih _).2
    · rw [hopWalk_step _ _ _ n loopB acc ⟨loopB⟩ hb, nb]
      exact (ih _).1

/-- C8 fails as stated: for the terminal host `loopA` of `cycleDB`, whose Hop relation
is a cycle, no number of iterations ends the walk; there is no resolution error. -/
theorem hopWalk_cycle_never_ends :
    ¬ ∃ fuel : Nat,
      (hopWalk allowEnv (bobContext "a") cycleDB fuel (some loopA) []).isSome = true := by
  rintro ⟨fuel, h⟩
  rw [(hopWalk_cycle_runs_on fuel []).1] at h
  exact Bool.noConfusion h

/-- C8 as amended: when the walk from the terminal host visits finitely many hosts and
stops (the Hop relation followed from it has no cycle), the loop ends within as many
iterations as hosts visited, with a chain or with the error of a hop; the code has no
depth cap and no cycle check. -/
theorem hopWalk_terminates_on_finite_walk (env : Env) (actx : authContext) (db : DB)
    (h0 : Host) (rest : List Host) (fuel : Nat) (acc : List sessionConfig)
    (hvisit : visits db h0 rest) (hfuel : rest.length + 1 ≤ fuel) :
    ∃ w : Walk, hopWalk env actx db fuel (some h0) acc = some w := by
  induction rest generalizing h0 fuel acc with
  | nil =>
    obtain ⟨n, rfl⟩ : ∃ n, fuel = n + 1 := ⟨fuel - 1, by simp at hfuel; omega⟩
    cases hc : bastionClientConfig env actx db h0 with
    | error e => exact ⟨.configError e, by simp [hopWalk, hc]⟩
    | ok cc =>
      rw [hopWalk_step env actx db n h0 acc cc hc]
      simp only [visits] at hvisit
      rw [hvisit]
      exact ⟨_, hopWalk_none env actx db n _⟩
  | cons h1 rest ih =>
    obtain ⟨n, rfl⟩ : ∃ n, fuel = n + 1 := ⟨fuel - 1, by simp at hfuel; omega⟩
    cases hc : bastionClientConfig env actx db h0 with
    | error e => exact ⟨.configError e, by simp [hopWalk, hc]⟩
    | ok cc =>
      rw [hopWalk_step env actx db n h0 acc cc hc]
      simp only [visits] at hvisit
      rw [hvisit.1]
      exact ih h1 n _ hvisit.2 (by simp at hfuel; omega)

/-- C8 as amended, on the store where `db01` hops through `bastion1`: two iterations
end the walk. -/
theorem hopWalk_terminates_on_finite_walk_witness :
    visits hopDB db01 [bastion1] ∧
    ∃ w : Walk, hopWalk allowEnv (bobContext "db01") hopDB 2 (some db01) [] = some w :=
  ⟨⟨by decide, by decide⟩,
   hopWalk_terminates_on_finite_walk allowEnv (bobContext "db01") hopDB db01 [bastion1] 2 []
     ⟨by decide, by decide⟩ (by decide)⟩

/-! ### Channel dispatch -/

/-- The host-key callback never touches the sessions table. -/
theorem dynamicHostKey_sessions (db : DB) (host : Host) (key : PublicKey) :
    (dynamicHostKey db host key).1.sessions = db.sessions := by
  unfold dynamicHostKey DB.updateHostKey
  split_ifs <;> rfl

/-- The hop dials never touch the sessions table. -/
theorem dialHops_sessions (env : Env) (cfgs : List sessionConfig) :
    ∀ db : DB, (dialHops env db cfgs).1.sessions = db.sessions := by
  induction cfgs with
  | nil => intro db; rfl
  | cons c cs ih =>
    intro db
    simp only [dialHops]
    cases env.dialErr c.Addr with
    | some e => rfl
    | none =>
      have hk := dynamicHostKey_sessions db c.ClientConfig.host (env.remoteHostKey c.Addr)
      rcases hd : dynamicHostKey db c.ClientConfig.host (env.remoteHostKey c.Addr) with
        ⟨db1, _ | e⟩
      · rw [hd] at hk
        simp only
        rw [ih db1]
        exact hk
      · rw [hd] at hk
        exact hk

/-- The proxying of a channel never touches the sessions table. -/
theorem multiChannelHandler_sessions (env : Env) (db : DB) (cfgs : List sessionConfig) :
    (multiChannelHandler env db cfgs).1.sessions = db.sessions := by
  unfold multiChannelHandler
  have h := dialHops_sessions env cfgs db
  rcases hd : dialHops env db cfgs with ⟨db1, _ | e⟩ <;> rw [hd] at h <;> exact h

/-- A fresh primary key is above every key in use. -/
theorem lt_nextID (ids : List Nat) : ∀ i ∈ ids, i < nextID ids := by
  induction ids with
  | nil => intro i hi; cases hi
  | cons a as ih =>
    intro i hi
    simp only [nextID, List.foldr_cons] at ih ⊢
    rcases List.mem_cons.mp hi with rfl | hi
    · omega
    · have := ih i hi
      omega

/-- Closing the Session row that was just appended rewrites that row alone. -/
theorem updatesSession_created (db0 db2 : DB) (sess upd : Session)
    (hid : sess.ID = nextID (db0.sessions.map fun r => r.ID))
    (hs : db2.sessions = db0.sessions ++ [sess])
    (hu : upd.ID = 0 ∧ upd.UserID = 0 ∧ upd.HostID = 0 ∧ upd.Status ≠ "" ∧ upd.StoppedAt ≠ none)
    (he : sess.ErrMsg = "") :
    (db2.updatesSession sess upd).sessions
      = db0.sessions ++ [⟨sess.ID, sess.UserID, sess.HostID, upd.Status, upd.ErrMsg,
          upd.StoppedAt⟩] := by
  obtain ⟨h1, h2, h3, h4, h5⟩ := hu
  have hne : ¬ sess.ID = 0 := by simp [hid, nextID]
  simp only [DB.updatesSession, hne, if_false, hs, List.map_append, List.map_cons,
    List.map_nil, if_true, h1, h2, h3, h4, h5, he]
  congr 1
  · conv_rhs => rw [← List.map_id db0.sessions]
    apply List.map_congr_left
    intro r hr
    have := lt_nextID (db0.sessions.map fun r => r.ID) r.ID (List.mem_map.mpr ⟨r, hr, rfl⟩)
    have hne2 : ¬ r.ID = sess.ID := by omega
    simp [hne2]
  · by_cases hm : upd.ErrMsg = "" <;> simp [hm]

/-- Answering with a text is not a started session. -/
theorem acceptAndWrite_ne_session (env : Env) (text : String) (cfgs : List sessionConfig)
    (id : Nat) (e : Option String) : acceptAndWrite env text ≠ .session cfgs id e := by
  unfold acceptAndWrite
  split_ifs <;> exact fun h => Outcome.noConfusion h

/-- The sessions table after the bastion case: unchanged store on a rejection, one
closed row more after a session channel was proxied. -/
theorem bastionCase_sessions (env : Env) (fuel : Nat) (channelType hashed : String)
    (conn : Conn) (actx : authContext) (db : DB) (cache : DirectTCPCnxManager) (r : Result)
    (h : bastionCase env fuel channelType hashed conn actx db cache = some r) :
    (r.outcome.isRejection = true → r.db = db) ∧
    (∀ cfgs id e, r.outcome = .session cfgs id e →
      ∃ host, HostByName db actx.inputUsername = .ok host ∧
        r.db.sessions = db.sessions ++
          [⟨id, actx.user.ID, host.ID, SessionStatusClosed, e.getD "", some env.now⟩]) := by
  unfold bastionCase at h
  cases hh : HostByName db actx.inputUsername with
  | error err =>
    rw [hh] at h
    simp only [Option.some.injEq] at h
    subst h
    exact ⟨fun _ => rfl, fun cfgs id e he => absurd he (acceptAndWrite_ne_session _ _ _ _ _)⟩
  | ok host =>
    rw [hh] at h
    simp only at h
    by_cases hs : host.Scheme = BastionSchemeSSH
    · rw [if_pos hs] at h
      cases hw : hopWalk env actx db fuel (some host) [] with
      | none => rw [hw] at h; simp at h
      | some w =>
        rw [hw] at h
        cases w with
        | configError e2 =>
          simp only [Option.some.injEq] at h
          subst h
          exact ⟨fun _ => rfl, fun cfgs id e he => absurd he (acceptAndWrite_ne_session _ _ _ _ _)⟩
        | chain cfgs =>
          simp only [DB.createSession] at h
          by_cases hd : channelType = "direct-tcpip"
          · rw [if_pos hd] at h
            simp only [Option.some.injEq] at h
            subst h
            exact ⟨fun hr => by simp [Outcome.isRejection] at hr,
              fun cfgs id e he => by simp at he⟩
          · rw [if_neg hd] at h
            simp only [Option.some.injEq] at h
            subst h
            refine ⟨fun hr => by simp [Outcome.isRejection] at hr, ?_⟩
            intro cfgs2 id e he
            simp only [Outcome.session.injEq] at he
            obtain ⟨_, hid, herr⟩ := he
            refine ⟨host, rfl, ?_⟩
            subst hid herr
            have hm := multiChannelHandler_sessions env
              { db with sessions := db.sessions ++
                [{ ID := nextID (db.sessions.map fun r => r.ID), UserID := actx.user.ID,
                   HostID := host.ID, Status := SessionStatusActive, ErrMsg := "",
                   StoppedAt := none }] } cfgs
            exact updatesSession_created db _ _ _ rfl hm
              ⟨rfl, rfl, rfl, by simp [SessionStatusClosed], by simp⟩ rfl
    · rw [if_neg hs] at h
      by_cases ht : host.Scheme = BastionSchemeTelnet
      · rw [if_pos ht] at h
        simp only [Option.some.injEq] at h
        subst h
        exact ⟨fun hr => by simp [Outcome.isRejection] at hr,
          fun cfgs id e he => by simp at he⟩
      · rw [if_neg ht] at h
        simp only [Option.some.injEq] at h
        subst h
        exact ⟨fun _ => rfl, fun cfgs id e he => absurd he (acceptAndWrite_ne_session _ _ _ _ _)⟩

/-- The sessions table after the main block. -/
theorem mainBlock_sessions (env : Env) (fuel : Nat) (channelType hashed : String)
    (conn : Conn) (actx : authContext) (db : DB) (cache : DirectTCPCnxManager) (r : Result)
    (h : mainBlock env fuel channelType hashed conn actx db cache = some r) :
    (r.outcome.isRejection = true → r.db = db) ∧
    (∀ cfgs id e, r.outcome = .session cfgs id e →
      ∃ host, HostByName db actx.inputUsername = .ok host ∧
        r.db.sessions = db.sessions ++
          [⟨id, actx.user.ID, host.ID, SessionStatusClosed, e.getD "", some env.now⟩]) := by
  have hdispatch : ∀ r2 : Result,
      (if actx.userType = userTypeBastion then
        bastionCase env fuel channelType hashed conn actx db cache
       else some ⟨db, cache, actx.err, .defaultHandler⟩) = some r2 →
      (r2.outcome.isRejection = true → r2.db = db) ∧
      (∀ cfgs id e, r2.outcome = .session cfgs id e →
        ∃ host, HostByName db actx.inputUsername = .ok host ∧
          r2.db.sessions = db.sessions ++
            [⟨id, actx.user.ID, host.ID, SessionStatusClosed, e.getD "", some env.now⟩]) := by
    intro r2 h2
    by_cases hb : actx.userType = userTypeBastion
    · rw [if_pos hb] at h2
      exact bastionCase_sessions env fuel channelType hashed conn actx db cache r2 h2
    · rw [if_neg hb] at h2
      simp only [Option.some.injEq] at h2
      subst h2
      exact ⟨fun hr => by simp [Outcome.isRejection] at hr, fun cfgs id e he => by simp at he⟩
  unfold mainBlock at h
  simp only at h
  by_cases hg : actx.user.ID = 0 ∧ actx.userType ≠ userTypeHealthcheck
  · rw [if_pos hg] at h
    cases hr : ResolveTCPAddr env conn.RemoteNetwork conn.RemoteAddr with
    | ok ip =>
      rw [hr] at h
      simp only [Option.some.injEq] at h
      subst h
      exact ⟨fun _ => rfl, fun cfgs id e he => absurd he (acceptAndWrite_ne_session _ _ _ _ _)⟩
    | error e =>
      rw [hr] at h
      exact hdispatch r h
  · rw [if_neg hg] at h
    exact hdispatch r h

/-- C6 as amended: whenever `ChannelHandler` refuses the channel or answers it with an
error text and closes it (which is how access denial, an unknown host name, an ACL
deny or other config error at some hop, and an unknown scheme end), the store is left
as it was, so no Session row is created. A session channel that reaches the dial has
had its Session row created before the dial: when the call ends, the table holds
exactly one row more, for the user and the terminal host, closed, with the error of
the dial or pump (a host key mismatch included) as its message. -/
theorem ChannelHandler_session_rows (env : Env) (fuel : Nat) (conn : Conn)
    (channelType : String) (actx : authContext) (db : DB) (cache : DirectTCPCnxManager)
    (r : Result) (h : ChannelHandler env fuel conn channelType actx db cache = some r) :
    ((r.outcome = .rejected ∨ r.outcome = .acceptFailed ∨ ∃ text, r.outcome = .errorText text) →
      r.db = db) ∧
    (∀ cfgs id e, r.outcome = .session cfgs id e →
      ∃ host, HostByName db actx.inputUsername = .ok host ∧
        r.db.sessions = db.sessions ++
          [⟨id, actx.user.ID, host.ID, SessionStatusClosed, e.getD "", some env.now⟩]) := by
  have hrej : (r.outcome = .rejected ∨ r.outcome = .acceptFailed ∨
      ∃ text, r.outcome = .errorText text) → r.outcome.isRejection = true := by
    rintro (h1 | h1 | ⟨t, h1⟩) <;> rw [h1] <;> rfl
  suffices hs : (r.outcome.isRejection = true → r.db = db) ∧
      (∀ cfgs id e, r.outcome = .session cfgs id e →
        ∃ host, HostByName db actx.inputUsername = .ok host ∧
          r.db.sessions = db.sessions ++
            [⟨id, actx.user.ID, host.ID, SessionStatusClosed, e.getD "", some env.now⟩]) from
    ⟨fun hr => hs.1 (hrej hr), hs.2⟩
  unfold ChannelHandler at h
  simp only at h
  by_cases hs : channelType = "session"
  · rw [if_pos hs] at h
    exact mainBlock_sessions env fuel channelType _ conn actx db cache r h
  · rw [if_neg hs] at h
    by_cases hd : channelType = "direct-tcpip"
    · rw [if_pos hd] at h
      rcases hc : cache.GetAndUpdate env.now (hashTCPCnx
          [conn.User, conn.RemoteAddr, conn.LocalAddr, toString actx.user.ID,
            actx.user.Email]) with ⟨cache1, _ | v⟩
      · rw [hc] at h
        exact mainBlock_sessions env fuel channelType _ conn actx db cache1 r h
      · rw [hc] at h
        simp only [Option.some.injEq] at h
        subst h
        exact ⟨fun hr => by simp [Outcome.isRejection] at hr,
          fun cfgs id e he => by simp at he⟩
    · rw [if_neg hd] at h
      simp only [Option.some.injEq] at h
      subst h
      exact ⟨fun _ => rfl, fun cfgs id e he => by simp at he⟩

/-- C6 as amended, at a concrete input: `bob` asks for `web01`, the ACL check answers
`deny`, the channel gets the permission error and the store has no Session row. -/
theorem ChannelHandler_session_rows_witness :
    ChannelHandler denyEnv 1 tcpConn "session" (bobContext "web01") bobWebDB
        DirectTCPCnxManager.empty =
      some ⟨bobWebDB, DirectTCPCnxManager.empty, none,
        .errorText "error: you don't have permission to that host\n"⟩ ∧
    bobWebDB.sessions = [] :=
  ⟨rfl,
   congrArg DB.sessions
     ((ChannelHandler_session_rows denyEnv 1 tcpConn "session" (bobContext "web01") bobWebDB
        DirectTCPCnxManager.empty
        ⟨bobWebDB, DirectTCPCnxManager.empty, none,
          .errorText "error: you don't have permission to that host\n"⟩ rfl).1
      (Or.inr (Or.inr ⟨_, rfl⟩)))⟩

/-- C6 fails as stated: `web01` has the fingerprint [1] on record, the remote side
presents another key, the dial fails with a host key mismatch, and the store then
holds a Session row: it was created before the dial and is closed with the error. -/
theorem ChannelHandler_host_key_mismatch_has_session_row :
    (ChannelHandler allowEnv 1 tcpConn "session" (bobContext "web01") pinnedDB
        DirectTCPCnxManager.empty).map (fun r => (r.outcome, r.db.sessions)) =
      some (.session [⟨"10.0.0.5:22", ⟨pinnedWeb01⟩, "/var/log/sshportal", "everything"⟩] 1
          (some "ssh: host key mismatch"),
        [⟨1, 3, 1, "closed", "ssh: host key mismatch", some 1000⟩]) ∧
    pinnedDB.sessions = [] := by
  decide

/-- The access check of the main block: when the user id is zero, the user type is not
`healthcheck` and the remote address resolves as a TCP address, the main block sets
`actx.err` to "access denied", answers the channel with that error (or returns when
the accept fails) and goes no further. -/
theorem mainBlock_access_denied (env : Env) (fuel : Nat) (channelType hashed : String)
    (conn : Conn) (actx : authContext) (db : DB) (cache : DirectTCPCnxManager) (ip : String)
    (hid : actx.user.ID = 0) (hty : actx.userType ≠ userTypeHealthcheck)
    (hres : ResolveTCPAddr env conn.RemoteNetwork conn.RemoteAddr = .ok ip) :
    mainBlock env fuel channelType hashed conn actx db cache =
      some ⟨db, cache, some "access denied",
        if env.acceptFails then .acceptFailed else .errorText "error: access denied\n"⟩ := by
  unfold mainBlock
  simp only
  rw [if_pos ⟨hid, hty⟩, hres]
  rfl

/-- C4: for every channel open that reaches the main block of `ChannelHandler` (a
session channel, or a direct-tcpip channel that misses the cache) with user id zero and
a user type other than `healthcheck`, on a connection whose remote address is the TCP
address of the accepted client (`net.ResolveTCPAddr` succeeds on it), the handler
returns, whatever the fuel, having set `actx.err` to "access denied" and answered the
channel with "error: access denied" and closed it (or returned at once when the accept
failed). It does not proceed: the outcome is neither a telnet or default-handler
delegation nor a started session, no chain is built, and the store, its Session rows
included, and the cache are as they were. -/
theorem ChannelHandler_access_denied (env : Env) (fuel : Nat) (conn : Conn)
    (channelType : String) (actx : authContext) (db : DB) (cache : DirectTCPCnxManager)
    (ip : String)
    (hreach : channelType = "session" ∨
      (channelType = "direct-tcpip" ∧
        cache.Connections (hashTCPCnx [conn.User, conn.RemoteAddr, conn.LocalAddr,
          toString actx.user.ID, actx.user.Email]) = none))
    (hid : actx.user.ID = 0) (hty : actx.userType ≠ userTypeHealthcheck)
    (hres : ResolveTCPAddr env conn.RemoteNetwork conn.RemoteAddr = .ok ip) :
    ChannelHandler env fuel conn channelType actx db cache =
      some ⟨db, cache, some "access denied",
        if env.acceptFails then .acceptFailed else .errorText "error: access denied\n"⟩ := by
  unfold ChannelHandler
  simp only
  rcases hreach with hs | ⟨hd, hmiss⟩
  · rw [if_pos hs]
    exact mainBlock_access_denied env fuel channelType _ conn actx db cache ip hid hty hres
  · have hns : ¬ channelType = "session" := by rw [hd]; decide
    rw [if_neg hns, if_pos hd]
    simp only [DirectTCPCnxManager.GetAndUpdate, hmiss]
    exact mainBlock_access_denied env fuel channelType _ conn actx db cache ip hid hty hres

/-- C4 at a concrete input: the key of a deleted user authenticates with the zero user
(id 0) and the user type `bastion`; its session channel, opened over TCP, is answered
with the access-denied text, and the telnet host it asked for is never looked up. -/
theorem ChannelHandler_access_denied_witness :
    ((PublicKeyAuthHandler "DISABLED" ⟨"", "", "", "", "", "", false⟩ orphanDB "tn01"
        orphanKey).2.1.user.ID = 0 ∧
     (PublicKeyAuthHandler "DISABLED" ⟨"", "", "", "", "", "", false⟩ orphanDB "tn01"
        orphanKey).2.1.userType ≠ userTypeHealthcheck ∧
     ResolveTCPAddr allowEnv tcpConn.RemoteNetwork tcpConn.RemoteAddr
        = .ok "192.0.2.1:5555") ∧
    ChannelHandler allowEnv 1 tcpConn "session"
        (PublicKeyAuthHandler "DISABLED" ⟨"", "", "", "", "", "", false⟩ orphanDB "tn01"
          orphanKey).2.1
        orphanDB DirectTCPCnxManager.empty =
      some ⟨orphanDB, DirectTCPCnxManager.empty, some "access denied",
        .errorText "error: access denied\n"⟩ :=
  ⟨⟨by decide, by decide, rfl⟩,
   ChannelHandler_access_denied allowEnv 1 tcpConn "session"
     (PublicKeyAuthHandler "DISABLED" ⟨"", "", "", "", "", "", false⟩ orphanDB "tn01"
       orphanKey).2.1
     orphanDB DirectTCPCnxManager.empty "192.0.2.1:5555" (Or.inl rfl) (by decide)
     (by decide) rfl⟩

/-- Outside the connections a TCP listener hands over: with a remote address whose
network is not TCP, `net.ResolveTCPAddr` fails, the block under `if err == nil` is
skipped, and the same user reaches the `switch actx.userType()`. -/
theorem ChannelHandler_non_tcp_remote_reaches_switch :
    (ChannelHandler allowEnv 1 unixConn "session"
        (PublicKeyAuthHandler "DISABLED" ⟨"", "", "", "", "", "", false⟩ orphanDB "tn01"
          orphanKey).2.1
        orphanDB DirectTCPCnxManager.empty).map (fun r => r.outcome) =
      some (.telnet tn01) := by
  decide

/-! ### Further properties of the dispatch -/

/-- An ACL decision `deny` makes `bastionClientConfig` fail with the permission error. -/
theorem bastionClientConfig_of_deny (env : Env) (actx : authContext) (db : DB) (host : Host)
    (hcfg : env.hostClientConfig host = none)
    (hacl : aclDecision env actx db host = some ACLActionDeny) :
    bastionClientConfig env actx db host
      = .error "you don't have permission to that host" := by
  unfold aclDecision at hacl
  unfold bastionClientConfig
  rw [hcfg]
  cases hu : db.findUser actx.user.ID with
  | none => simp [hu] at hacl
  | some u =>
    cases hh : db.hosts.find? (fun r => decide (r.ID = host.ID)) with
    | none => simp [hu, hh] at hacl
    | some th =>
      simp only [hu, hh, Option.some.injEq] at hacl
      simp [hacl, ACLActionDeny, ACLActionAllow]

/-- A deny at any hop fails the whole chain: when the walk passes the hosts of `pre`,
each accepted by `bastionClientConfig`, and then reaches a host whose ACL decision is
`deny`, the loop ends with the permission error and no chain. -/
theorem hopWalk_denied_hop (env : Env) (actx : authContext) (db : DB) (denied : Host)
    (hcfg : env.hostClientConfig denied = none)
    (hacl : aclDecision env actx db denied = some ACLActionDeny) :
    ∀ (pre : List Host) (fuel : Nat) (acc : List sessionConfig),
      List.Chain' (fun a b => hopNext db a = some b) (pre ++ [denied]) →
      (∀ h ∈ pre, bastionClientConfig env actx db h = .ok ⟨h⟩) →
      pre.length + 1 ≤ fuel →
      hopWalk env actx db fuel ((pre ++ [denied]).head?) acc =
        some (.configError "you don't have permission to that host") := by
  intro pre
  induction pre with
  | nil =>
    intro fuel acc _ _ hf
    obtain ⟨n, rfl⟩ : ∃ n, fuel = n + 1 := ⟨fuel - 1, by simp at hf; omega⟩
    simp [hopWalk, bastionClientConfig_of_deny env actx db denied hcfg hacl]
  | cons p ps ih =>
    intro fuel acc hch hok hf
    obtain ⟨n, rfl⟩ : ∃ n, fuel = n + 1 := ⟨fuel - 1, by simp at hf; omega⟩
    have hstep := hopWalk_step env actx db n p acc ⟨p⟩ (hok p (by simp))
    simp only [List.cons_append, List.head?_cons] at hstep ⊢
    rw [hstep]
    cases hps : ps ++ [denied] with
    | nil => simp at hps
    | cons q qs =>
      rw [List.cons_append, hps, List.chain'_cons] at hch
      rw [hch.1]
      have := ih n (⟨p.Addr, ⟨p⟩, actx.logsLocation, p.Logging⟩ :: acc) (hps ▸ hch.2)
        (fun h hh => hok h (List.mem_cons_of_mem _ hh)) (by simp at hf; omega)
      rw [hps] at this
      simpa using this

/-- A deny at the second hop, at a concrete input: `db01` is allowed, `bastion1` is
denied, and the walk from `db01` ends with the permission error. -/
theorem hopWalk_denied_hop_witness :
    hopWalk denyBastionEnv (bobContext "db01") hopDB 2 (some db01) [] =
      some (.configError "you don't have permission to that host") :=
  hopWalk_denied_hop denyBastionEnv (bobContext "db01") hopDB bastion1 rfl (by decide)
    [db01] 2 [] (by simp [List.chain'_cons]; decide)
    (by intro h hh; rw [List.mem_singleton.mp hh]; rfl) (by decide)

end Bastion
